import Mathlib

/-!
Verification of the artifacter template engine (TemplateProcessor).

The file embeds src/template.processor.ts shallowly: the processor state is a
structure, the run method is a pure function threading the working text and
the emitted warnings explicitly, and thrown errors are an Except error type.
Classes of this repository that are not under src (MappedExpression,
DeclaredIteration, TemplateContainer, the pipe/template function processors)
and the external StringContainer are modelled from the spec where noted.
Texts are lists of characters so that range splicing is explicit.
-/

namespace ATE

/-- Warnings emitted through console.warn by TemplateProcessor.run:
a missing non-optional mapped key, or a missing named template parameter. -/
inductive Warning where
  | missingKey (k : String)
  | missingParam (k : String)
deriving DecidableEq, Repr

/-- Errors thrown by the processor: invalid template, empty values map,
parameterized expression without template parameters, an unresolved pipe
function, an unresolved template function, or an expression string that the
grammar cannot match in evaluateBoolean. -/
inductive RunError where
  | tmplInvalid
  | emptyMap
  | noParams
  | pipeNotFound (n : String)
  | tmplFnNotFound (n : String)
  | invalidBoolExpr
deriving DecidableEq, Repr

instance {ε α : Type} [DecidableEq ε] [DecidableEq α] : DecidableEq (Except ε α) := fun x y =>
  match x, y with
  | .ok a, .ok b =>
    if h : a = b then isTrue (by rw [h]) else isFalse (fun hc => by cases hc; exact h rfl)
  | .error e, .error f =>
    if h : e = f then isTrue (by rw [h]) else isFalse (fun hc => by cases hc; exact h rfl)
  | .ok _, .error _ => isFalse (fun hc => by cases hc)
  | .error _, .ok _ => isFalse (fun hc => by cases hc)

/-- Modelled from the spec: Expression Record (entity/mapped-expression is not
under src). One parsed mapped-expression occurrence: key, flags, ternary
branches, pipe-function names, half-open character range. -/
structure MappedExpression where
  mappedKey : String
  isOptional : Bool := false
  isNegated : Bool := false
  isTernary : Bool := false
  ternaryTrue : String := ""
  ternaryFalse : Option String := none
  pipeFunctions : List String := []
  isIterated : Bool := false
  isParameterized : Bool := false
  startIndex : Nat := 0
  endIndex : Nat := 0
deriving DecidableEq, Repr

/-- Modelled from the spec: Iteration Record (entity/declared-iteration is not
under src): a key bound to the name of a nullary generator function. -/
structure DeclaredIteration where
  mappedKey : String
  mappedFunction : String
deriving DecidableEq, Repr

/-- Modelled from the spec: Template Container state (container/template.container
is not under src): raw text, the scanned record lists ordered ascending by
start offset, diagnostic filename, validity and skip flags, and the
optionality-by-default option. -/
structure TemplateContainer where
  fileContents : List Char
  mapExprList : List MappedExpression
  iterDecList : List DeclaredIteration
  filename : String := ""
  invalid : Bool := false
  skip : Bool := false
  optionalityByDefault : Bool := false

/-- The TemplateProcessor state: the associated container, the optional
template parameters set by setTemplateParameters (none when never set), and
the two function registries. The registries model the pipe/template function
processors from the spec: a name resolves to a unary string transform
(pipe) or to a produced string (template function), or to nothing. -/
structure TemplateProcessor where
  atmplContainer : TemplateContainer
  templateParameters : Option (List (String × String)) := none
  pipeRegistry : String → Option (String → String) := fun _ => none
  tmplRegistry : String → Option String := fun _ => none

/-- Lookup in a string-keyed map modelled as an association list
(Map.get returns undefined, here none, when the key is absent). -/
def mapGet (m : List (String × String)) (k : String) : Option String :=
  (m.find? (fun p => p.1 == k)).map (fun p => p.2)

/-- Modelled from the spec: StringContainer.replaceRange (external package)
rewrites the half-open range from a to b of the text with v. -/
def replaceRange (s : List Char) (a b : Nat) (v : List Char) : List Char :=
  s.take a ++ v ++ s.drop b

/-- Modelled from JS semantics: splicing an undefined replacement value into
the working text coerces it to the literal string form of undefined. -/
def jsCoerce : Option String → String
  | some s => s
  | none => "undefined"

/-- Modelled from the spec: PipeFunctionsProcessor.invoke applies each named
transform in declared order, each consuming the previous output, failing with
a lookup error naming the first unresolved function. -/
def pipeInvoke (reg : String → Option (String → String)) :
    List String → String → Except RunError String
  | [], v => .ok v
  | f :: fs, v =>
    match reg f with
    | some t => pipeInvoke reg fs (t v)
    | none => .error (.pipeNotFound f)

/-- Modelled from the spec: TemplateFunctionsProcessor.invoke resolves a
template function name to its produced string, failing with a lookup error
when the name has no registered implementation. -/
def tmplInvoke (reg : String → Option String) (n : String) : Except RunError String :=
  match reg n with
  | some s => .ok s
  | none => .error (.tmplFnNotFound n)

/-- Fold of the forEach inside retrieveValueFromIterDec: every record whose
key matches has its bound template function invoked and overwrites the
accumulator (a return inside forEach does not break the loop, so the last
match wins); a non-matching record leaves the accumulator unchanged. -/
def iterFold (reg : String → Option String) (k : String) :
    List DeclaredIteration → Option String → Except RunError (Option String)
  | [], acc => .ok acc
  | d :: ds, acc =>
    if d.mappedKey == k then
      match tmplInvoke reg d.mappedFunction with
      | .ok v => iterFold reg k ds (some v)
      | .error err => .error err
    else
      iterFold reg k ds acc

/-- Embeds TemplateProcessor.retrieveValueFromIterDec: the result starts
undefined (none) and stays undefined when no record of iterDecList has the
requested key. -/
def retrieveValueFromIterDec (l : List DeclaredIteration)
    (reg : String → Option String) (k : String) : Except RunError (Option String) :=
  iterFold reg k l none

/-- Embeds the per-record body of the run loop (one iteration of the descending
walk): returns the replacement to write into the record's range (none when the
code performs no replaceRange call for this record) together with the warnings
emitted, or the thrown error. -/
def resolveExpr (proc : TemplateProcessor) (map : List (String × String))
    (e : MappedExpression) : Except RunError (Option (List Char) × List Warning) :=
  if e.isIterated then
    do
      let r ← retrieveValueFromIterDec proc.atmplContainer.iterDecList proc.tmplRegistry e.mappedKey
      pure (some (jsCoerce r).toList, [])
  else if e.isParameterized then
    match proc.templateParameters with
    | none => .error .noParams
    | some ps =>
      match mapGet ps e.mappedKey with
      | none => .ok (none, [.missingParam e.mappedKey])
      | some v => .ok (some v.toList, [])
  else
    match mapGet map e.mappedKey with
    | none =>
      if !e.isOptional && !proc.atmplContainer.optionalityByDefault then
        .ok (none, [.missingKey e.mappedKey])
      else
        .ok (some [], [])
    | some v =>
      do
        let v1 := if e.isTernary then
            (if v ≠ "" then e.ternaryTrue else e.ternaryFalse.getD "")
          else v
        let v2 ← if e.pipeFunctions ≠ [] then
            pipeInvoke proc.pipeRegistry e.pipeFunctions v1
          else .ok v1
        pure (some v2.toList, [])

/-- Embeds the run loop over mapExprList: the code iterates the ascending list
from the last index down to 0, so the tail (higher offsets) is processed
before the head; each record either throws, only warns, or rewrites its
stored range in the working text. -/
def processExprs (proc : TemplateProcessor) (map : List (String × String)) :
    List MappedExpression → List Char × List Warning →
    Except RunError (List Char × List Warning)
  | [], st => .ok st
  | e :: rest, st =>
    do
      let st1 ← processExprs proc map rest st
      let (r, w) ← resolveExpr proc map e
      match r with
      | none => pure (st1.1, st1.2 ++ w)
      | some v => pure (replaceRange st1.1 e.startIndex e.endIndex v, st1.2 ++ w)

/-- Character class of the iteration-marker and expression-key grammar,
modelled from the spec and the pattern at the top of the processor source
(alphanumeric, underscore, dot, slash). -/
def isKeyChar (c : Char) : Bool :=
  c.isAlphanum || c == '_' || c == '.' || c == '/'

/-- Modelled from the spec: a declared-iteration marker is a double-colon
delimited key; this recognizer consumes one marker at the head of the text
and returns the remaining suffix. -/
def matchIterMarker : List Char → Option (List Char)
  | ':' :: ':' :: rest =>
    match rest.dropWhile isKeyChar with
    | ':' :: ':' :: rest2 => some rest2
    | _ => none
  | _ => none

/-- Fuel-driven scan removing every declared-iteration marker; the fuel is the
text length, enough since every step consumes at least one character. -/
def stripGo : Nat → List Char → List Char
  | 0, s => s
  | _ + 1, [] => []
  | fuel + 1, c :: cs =>
    match matchIterMarker (c :: cs) with
    | some rest => stripGo fuel rest
    | none => c :: stripGo fuel cs

/-- Embeds the cleanup pass of run (workingResult.replace of the declared
iteration pattern with the empty string): strips every remaining
declared-iteration marker from the text. -/
def stripIterDec (s : List Char) : List Char :=
  stripGo s.length s

/-- Embeds TemplateProcessor.run: the skip guard returns the stored text
unchanged, the invalid guard and the empty-map guard throw, otherwise the
working text is a fresh copy of the container's fileContents, the record list
is walked in descending start-offset order, and the declared-iteration
cleanup pass produces the returned string. The emitted warnings are returned
alongside the text. -/
def run (proc : TemplateProcessor) (map : List (String × String)) :
    Except RunError (List Char × List Warning) :=
  if proc.atmplContainer.skip then
    .ok (proc.atmplContainer.fileContents, [])
  else if proc.atmplContainer.invalid then
    .error .tmplInvalid
  else if map.isEmpty then
    .error .emptyMap
  else
    do
      let st ← processExprs proc map proc.atmplContainer.mapExprList
        (proc.atmplContainer.fileContents, [])
      pure (stripIterDec st.1, st.2)

/-- Run together with the post-run processor state. The source of run never
assigns to any field of the processor or its container (the working text is a
local StringContainer built from a copy of the immutable fileContents
string), so the post-run state is the pre-run state. -/
def runFull (proc : TemplateProcessor) (map : List (String × String)) :
    TemplateProcessor × Except RunError (List Char × List Warning) :=
  (proc, run proc map)

/-- Modelled from the spec: the single-expression grammar used by
evaluateBoolean (MappedExpression.regex is not under src). A standalone
expression is a double-colon delimited key with an optional leading negation
marker; this recognizer matches one expression at the head of the text. -/
def matchMappedExprAt (s : List Char) : Option MappedExpression :=
  match s with
  | ':' :: ':' :: rest =>
    let neg := match rest with
      | '!' :: _ => true
      | _ => false
    let rest1 := if neg then rest.tail else rest
    let key := rest1.takeWhile isKeyChar
    match key, rest1.dropWhile isKeyChar with
    | [], _ => none
    | _ :: _, ':' :: ':' :: _ =>
      some { mappedKey := ⟨key⟩, isNegated := neg }
    | _, _ => none
  | _ => none

/-- Fuel-driven scan for the first match of the single-expression grammar
anywhere in the text, as RegExp.exec does. -/
def parseGo : Nat → List Char → Option MappedExpression
  | 0, _ => none
  | _ + 1, [] => none
  | fuel + 1, c :: cs =>
    match matchMappedExprAt (c :: cs) with
    | some r => some r
    | none => parseGo fuel cs

/-- Parses the first mapped expression occurring in a standalone expression
string, none when the grammar finds no match. -/
def parseMappedExpression (s : List Char) : Option MappedExpression :=
  parseGo s.length s

/-- Case folding of a string, modelling the toLowerCase calls of the source
(character-wise ASCII lowercase). -/
def strLower (s : String) : String :=
  ⟨s.data.map Char.toLower⟩

/-- Embeds TemplateProcessor.evaluateBoolean: parse one expression from the
string (throwing when the grammar finds no match), look the key up in the
map, and only when the value is truthy (present and non-empty) test it
case-insensitively against true or 1, inverting under the negation flag; a
falsy value (absent key or empty string) yields false. -/
def evaluateBoolean (s : List Char) (map : List (String × String)) :
    Except RunError Bool :=
  match parseMappedExpression s with
  | none => .error .invalidBoolExpr
  | some e =>
    match mapGet map e.mappedKey with
    | some v =>
      if v ≠ "" then
        .ok (if e.isNegated then
          !(strLower v == "true" || strLower v == "1")
        else
          (strLower v == "true" || strLower v == "1"))
      else
        .ok false
    | none => .ok false

/-- Spec-side definition, written from the claim wording for C3: the boolean
value of a present value v under negation flag n is true iff v
case-insensitively equals true or 1, inverted when n is set. -/
def claimBoolValue (n : Bool) (v : String) : Bool :=
  if n then !(strLower v == "true" || strLower v == "1")
  else (strLower v == "true" || strLower v == "1")

/-- Spec-side definition, written from the spec wording for C8: a present
value is first ternary-replaced (ternaryTrue when non-empty, else the
declared ternaryFalse or empty), then the whole declared pipe chain is
applied in order. -/
def specPresentValue (reg : String → Option (String → String))
    (e : MappedExpression) (v : String) : Except RunError String :=
  pipeInvoke reg e.pipeFunctions
    (if e.isTernary then (if v ≠ "" then e.ternaryTrue else e.ternaryFalse.getD "") else v)

/-- Descending-order substitution pass in isolation: folds the ascending
record list from its last element (highest start offset) down to the first,
rewriting each stored range in the working text, with val giving each
record's replacement. This is the text transformation performed by the run
loop when every record resolves to a replacement. -/
def foldSpliceDesc (t : List Char) (val : MappedExpression → List Char)
    (rs : List MappedExpression) : List Char :=
  rs.foldr (fun r acc => replaceRange acc r.startIndex r.endIndex (val r)) t

/-- Single-pass splice against the original text, written from the claim
wording for C1: emit the original text between pos and each record's start,
then that record's replacement, continuing after its end. -/
def spliceAllFrom (t : List Char) (val : MappedExpression → List Char) :
    Nat → List MappedExpression → List Char
  | pos, [] => t.drop pos
  | pos, r :: rs =>
    (t.take r.startIndex).drop pos ++ val r ++ spliceAllFrom t val r.endIndex rs

/-- Well-formedness of a record list against a text from position pos:
ranges are ascending, pairwise non-overlapping, each half-open range is
ordered, and the last end stays within the text. -/
def validB (t : List Char) : Nat → List MappedExpression → Bool
  | pos, [] => pos ≤ t.length
  | pos, r :: rs =>
    pos ≤ r.startIndex && r.startIndex ≤ r.endIndex && validB t r.endIndex rs

lemma exceptPure_ok {ε α : Type} (a : α) : (pure a : Except ε α) = Except.ok a := rfl

lemma exceptBind_ok {ε α β : Type} (a : α) (f : α → Except ε β) :
    (Except.ok (ε := ε) a >>= f) = f a := rfl

lemma validB_le_length (t : List Char) :
    ∀ rs pos, validB t pos rs = true → pos ≤ t.length := by
  intro rs
  induction rs with
  | nil =>
    intro pos h
    simpa [validB] using h
  | cons r rs ih =>
    intro pos h
    simp only [validB, Bool.and_eq_true, decide_eq_true_eq] at h
    exact le_trans h.1.1 (le_trans h.1.2 (ih _ h.2))

lemma foldSpliceDesc_eq_spliceAll (t : List Char) (val : MappedExpression → List Char) :
    ∀ rs pos, validB t pos rs = true →
      foldSpliceDesc t val rs = t.take pos ++ spliceAllFrom t val pos rs := by
  intro rs
  induction rs with
  | nil =>
    intro pos h
    simp [foldSpliceDesc, spliceAllFrom, List.take_append_drop]
  | cons r rs ih =>
    intro pos h
    simp only [validB, Bool.and_eq_true, decide_eq_true_eq] at h
    have h1 := h.1.1
    have h2 := h.1.2
    have h3 := h.2
    have hlen : r.endIndex ≤ t.length := validB_le_length t rs r.endIndex h3
    have hlen1 : (t.take r.endIndex).length = r.endIndex := by
      rw [List.length_take, Nat.min_eq_left hlen]
    have ihr := ih r.endIndex h3
    simp only [foldSpliceDesc, List.foldr_cons] at ihr ⊢
    rw [ihr]
    simp only [replaceRange, spliceAllFrom]
    rw [List.take_append_of_le_length (by rw [hlen1]; exact h2)]
    rw [List.drop_left' hlen1]
    rw [List.take_take, Nat.min_eq_left h2]
    have hC : t.take pos ++ (t.take r.startIndex).drop pos = t.take r.startIndex := by
      conv_lhs =>
        rw [show t.take pos = (t.take r.startIndex).take pos from by
          rw [List.take_take, Nat.min_eq_left h1]]
      exact List.take_append_drop pos (t.take r.startIndex)
    rw [← List.append_assoc, ← List.append_assoc, hC]

lemma processExprs_allOk (proc : TemplateProcessor) (map : List (String × String))
    (val : MappedExpression → List Char) :
    ∀ rs txt ws,
      (∀ e ∈ rs, resolveExpr proc map e = .ok (some (val e), [])) →
      processExprs proc map rs (txt, ws) = .ok (foldSpliceDesc txt val rs, ws) := by
  intro rs
  induction rs with
  | nil =>
    intro txt ws _
    simp [processExprs, foldSpliceDesc]
  | cons e rs ih =>
    intro txt ws h
    have he := h e (List.mem_cons_self e rs)
    have hrest : ∀ x ∈ rs, resolveExpr proc map x = .ok (some (val x), []) :=
      fun x hx => h x (List.mem_cons_of_mem _ hx)
    simp only [processExprs]
    rw [ih txt ws hrest, he]
    simp only [exceptBind_ok, exceptPure_ok]
    simp [foldSpliceDesc, replaceRange]

/-- Claim C1 (confirmed). Offset safety of the substitution pass: when the
container's record list is ascending by start index with pairwise
non-overlapping in-bounds half-open ranges against the original text, and
every record resolves to a replacement (of arbitrary length), run, which
walks the list in descending start-offset order rewriting each range in the
working text, returns exactly the string obtained by computing every
replacement against the original unmodified text and splicing all of them in
a single pass. -/
theorem claim1_offset_safety (proc : TemplateProcessor) (map : List (String × String))
    (val : MappedExpression → List Char)
    (hskip : proc.atmplContainer.skip = false)
    (hinv : proc.atmplContainer.invalid = false)
    (hmap : map.isEmpty = false)
    (hvalid : validB proc.atmplContainer.fileContents 0 proc.atmplContainer.mapExprList = true)
    (hres : ∀ e ∈ proc.atmplContainer.mapExprList,
      resolveExpr proc map e = .ok (some (val e), [])) :
    run proc map = .ok
      (stripIterDec (spliceAllFrom proc.atmplContainer.fileContents val 0
        proc.atmplContainer.mapExprList), []) := by
  unfold run
  rw [hskip, hinv, hmap]
  simp only [Bool.false_eq_true, if_false]
  rw [processExprs_allOk proc map val _ _ _ hres]
  rw [foldSpliceDesc_eq_spliceAll _ _ _ 0 hvalid]
  simp only [exceptBind_ok, exceptPure_ok]
  simp

/-- Concrete two-expression template for the offset-safety witness: the two
replacements have lengths differing from their ranges. -/
def procC1 : TemplateProcessor :=
  { atmplContainer :=
    { fileContents := "XaaYbbZ".toList
      mapExprList :=
        [ { mappedKey := "k1", startIndex := 1, endIndex := 3 }
        , { mappedKey := "k2", startIndex := 4, endIndex := 6 } ]
      iterDecList := [] } }

/-- Data map for the offset-safety witness. -/
def mapC1 : List (String × String) := [("k1", "uu"), ("k2", "w")]

/-- Replacement values of the offset-safety witness records. -/
def valC1 (e : MappedExpression) : List Char :=
  ((mapGet mapC1 e.mappedKey).getD "").toList

theorem claim1_offset_safety_witness :
    run procC1 mapC1 = .ok ("XuuYwZ".toList, []) := by
  rw [claim1_offset_safety procC1 mapC1 valC1 rfl rfl rfl (by decide) (by decide)]
  decide

/-- Claim C4 (confirmed). Guard cascade of run: with the skip flag set run
returns fileContents unchanged for every map, even when the container is
invalid or the map empty; otherwise an invalid container throws the
configuration error and, failing that, an empty data map throws the input
error; in both throwing cases no output string is produced and no
substitution is performed. -/
theorem claim4_guard_cascade (proc : TemplateProcessor) (map : List (String × String)) :
    (proc.atmplContainer.skip = true →
      run proc map = .ok (proc.atmplContainer.fileContents, [])) ∧
    (proc.atmplContainer.skip = false → proc.atmplContainer.invalid = true →
      run proc map = .error .tmplInvalid) ∧
    (proc.atmplContainer.skip = false → proc.atmplContainer.invalid = false →
      map = [] → run proc map = .error .emptyMap) := by
  refine ⟨fun h1 => ?_, fun h1 h2 => ?_, fun h1 h2 h3 => ?_⟩
  · unfold run
    rw [h1]
    simp
  · unfold run
    rw [h1, h2]
    simp
  · unfold run
    rw [h1, h2, h3]
    simp

/-- Skipped template for the guard witness: skip wins even though the
container is also invalid and the supplied map is empty. -/
def procSkip : TemplateProcessor :=
  { atmplContainer :=
    { fileContents := "raw".toList
      mapExprList := []
      iterDecList := []
      invalid := true
      skip := true } }

/-- Invalid, non-skipped template for the guard witness. -/
def procInvalid : TemplateProcessor :=
  { atmplContainer :=
    { fileContents := "raw".toList
      mapExprList := []
      iterDecList := []
      invalid := true } }

/-- Valid template run against an empty map for the guard witness. -/
def procPlainGuard : TemplateProcessor :=
  { atmplContainer :=
    { fileContents := "raw".toList
      mapExprList := []
      iterDecList := [] } }

theorem claim4_guard_cascade_witness :
    run procSkip [] = .ok ("raw".toList, []) ∧
    run procInvalid [("a", "b")] = .error .tmplInvalid ∧
    run procPlainGuard [] = .error .emptyMap :=
  ⟨(claim4_guard_cascade procSkip []).1 rfl,
   (claim4_guard_cascade procInvalid [("a", "b")]).2.1 rfl rfl,
   (claim4_guard_cascade procPlainGuard []).2.2 rfl rfl rfl⟩

lemma exceptBind_err {ε α β : Type} (e : ε) (f : α → Except ε β) :
    (Except.error (α := α) e >>= f) = Except.error e := rfl

lemma run_single (proc : TemplateProcessor) (map : List (String × String))
    (e : MappedExpression)
    (hskip : proc.atmplContainer.skip = false)
    (hinv : proc.atmplContainer.invalid = false)
    (hmap : map.isEmpty = false)
    (hlist : proc.atmplContainer.mapExprList = [e]) :
    run proc map =
      match resolveExpr proc map e with
      | .error err => .error err
      | .ok (none, w) => .ok (stripIterDec proc.atmplContainer.fileContents, w)
      | .ok (some v, w) =>
        .ok (stripIterDec
          (replaceRange proc.atmplContainer.fileContents e.startIndex e.endIndex v), w) := by
  unfold run
  rw [hskip, hinv, hmap, hlist]
  simp only [Bool.false_eq_true, if_false, processExprs, exceptBind_ok, exceptPure_ok]
  cases hres : resolveExpr proc map e with
  | error err => rfl
  | ok p =>
    obtain ⟨r, w⟩ := p
    cases r <;> simp [exceptBind_ok, exceptPure_ok, replaceRange]

/-- Single-record plain non-optional template whose key is absent from the
map: the counterexample showing the placeholder is left in the output. -/
def procC2 : TemplateProcessor :=
  { atmplContainer :=
    { fileContents := "x&k&y".toList
      mapExprList := [ { mappedKey := "k", startIndex := 1, endIndex := 4 } ]
      iterDecList := [] } }

/-- Non-empty map lacking the key of procC2's expression. -/
def mapC2 : List (String × String) := [("other", "v")]

/-- Claim C2 counterexample: with the single non-optional expression for key
k at range 1 to 4 and a non-empty map lacking k, run warns once but returns
the text with the placeholder still present, not the text with the
placeholder range removed as the claim states. -/
theorem claim2_counterexample :
    run procC2 mapC2 = .ok ("x&k&y".toList, [Warning.missingKey "k"]) ∧
    "x&k&y".toList ≠ replaceRange "x&k&y".toList 1 4 [] := by
  decide

/-- Claim C2 (amended). Missing non-optional key: for every template whose
single expression is a plain mapped expression for a key that is not
optional (record-level or container-default) and every non-empty data map
lacking that key, run emits exactly one warning for the key, leaves the
placeholder text in place (performs no substitution of its range), and still
completes and returns a string. -/
theorem claim2_missing_nonoptional_warns (proc : TemplateProcessor)
    (map : List (String × String)) (e : MappedExpression)
    (hskip : proc.atmplContainer.skip = false)
    (hinv : proc.atmplContainer.invalid = false)
    (hmap : map.isEmpty = false)
    (hlist : proc.atmplContainer.mapExprList = [e])
    (hit : e.isIterated = false)
    (hpar : e.isParameterized = false)
    (hopt : e.isOptional = false)
    (hdef : proc.atmplContainer.optionalityByDefault = false)
    (habs : mapGet map e.mappedKey = none) :
    run proc map =
      .ok (stripIterDec proc.atmplContainer.fileContents, [.missingKey e.mappedKey]) := by
  rw [run_single proc map e hskip hinv hmap hlist]
  have hres : resolveExpr proc map e = .ok (none, [.missingKey e.mappedKey]) := by
    unfold resolveExpr
    simp [hit, hpar, habs, hopt, hdef]
  rw [hres]

theorem claim2_missing_nonoptional_warns_witness :
    run procC2 mapC2 = .ok (stripIterDec "x&k&y".toList, [Warning.missingKey "k"]) :=
  claim2_missing_nonoptional_warns procC2 mapC2
    { mappedKey := "k", startIndex := 1, endIndex := 4 }
    rfl rfl rfl rfl rfl rfl rfl rfl (by decide)

/-- Claim C9 (confirmed). Missing optional key: for every template whose
single expression is a plain mapped expression that is optional at record
level or whose container sets optionality by default, and every non-empty
map lacking its key, run substitutes the expression's range with the empty
string and emits no warning. -/
theorem claim9_optional_missing_empty (proc : TemplateProcessor)
    (map : List (String × String)) (e : MappedExpression)
    (hskip : proc.atmplContainer.skip = false)
    (hinv : proc.atmplContainer.invalid = false)
    (hmap : map.isEmpty = false)
    (hlist : proc.atmplContainer.mapExprList = [e])
    (hit : e.isIterated = false)
    (hpar : e.isParameterized = false)
    (hopt : e.isOptional = true ∨ proc.atmplContainer.optionalityByDefault = true)
    (habs : mapGet map e.mappedKey = none) :
    run proc map =
      .ok (stripIterDec
        (replaceRange proc.atmplContainer.fileContents e.startIndex e.endIndex []), []) := by
  rw [run_single proc map e hskip hinv hmap hlist]
  have hres : resolveExpr proc map e = .ok (some [], []) := by
    unfold resolveExpr
    rcases hopt with h | h <;> simp [hit, hpar, habs, h]
  rw [hres]

/-- Single-record optional expression whose key is absent, for the C9
witness. -/
def procC9 : TemplateProcessor :=
  { atmplContainer :=
    { fileContents := "x&k&y".toList
      mapExprList :=
        [ { mappedKey := "k", isOptional := true, startIndex := 1, endIndex := 4 } ]
      iterDecList := [] } }

theorem claim9_optional_missing_empty_witness :
    run procC9 mapC2 = .ok ("xy".toList, []) := by
  rw [claim9_optional_missing_empty procC9 mapC2
    { mappedKey := "k", isOptional := true, startIndex := 1, endIndex := 4 }
    rfl rfl rfl rfl rfl rfl (Or.inl rfl) (by decide)]
  decide

/-- Single parameterized record with a supplied parameter set lacking its
name: the counterexample showing the range is left unmodified. -/
def procC7 : TemplateProcessor :=
  { atmplContainer :=
    { fileContents := "x&p&y".toList
      mapExprList :=
        [ { mappedKey := "p", isParameterized := true, startIndex := 1, endIndex := 4 } ]
      iterDecList := [] }
    templateParameters := some [("other", "x")] }

/-- Claim C7 counterexample: with a supplied parameter set lacking the
parameterized expression's name, run warns and completes but returns the
text with the placeholder range untouched, not spliced with the empty
string as the claim states. -/
theorem claim7_counterexample :
    run procC7 mapC2 = .ok ("x&p&y".toList, [Warning.missingParam "p"]) ∧
    "x&p&y".toList ≠ replaceRange "x&p&y".toList 1 4 [] := by
  decide

/-- Claim C7 (amended). Missing named parameter: for every template whose
single expression is parameterized, when a parameter set was supplied but
lacks the expression's name, run emits one non-fatal warning, leaves the
expression's range unmodified (no substitution is performed), and proceeds
to completion returning a string. -/
theorem claim7_missing_parameter_warns (proc : TemplateProcessor)
    (map : List (String × String)) (e : MappedExpression)
    (ps : List (String × String))
    (hskip : proc.atmplContainer.skip = false)
    (hinv : proc.atmplContainer.invalid = false)
    (hmap : map.isEmpty = false)
    (hlist : proc.atmplContainer.mapExprList = [e])
    (hit : e.isIterated = false)
    (hpar : e.isParameterized = true)
    (hps : proc.templateParameters = some ps)
    (habs : mapGet ps e.mappedKey = none) :
    run proc map =
      .ok (stripIterDec proc.atmplContainer.fileContents, [.missingParam e.mappedKey]) := by
  rw [run_single proc map e hskip hinv hmap hlist]
  have hres : resolveExpr proc map e = .ok (none, [.missingParam e.mappedKey]) := by
    unfold resolveExpr
    simp [hit, hpar, hps, habs]
  rw [hres]

theorem claim7_missing_parameter_warns_witness :
    run procC7 mapC2 = .ok (stripIterDec "x&p&y".toList, [Warning.missingParam "p"]) :=
  claim7_missing_parameter_warns procC7 mapC2
    { mappedKey := "p", isParameterized := true, startIndex := 1, endIndex := 4 }
    [("other", "x")] rfl rfl rfl rfl rfl rfl rfl (by decide)

lemma retrieveValueFromIterDec_nomatch (l : List DeclaredIteration)
    (reg : String → Option String) (k : String)
    (h : ∀ d ∈ l, d.mappedKey ≠ k) :
    retrieveValueFromIterDec l reg k = .ok none := by
  unfold retrieveValueFromIterDec
  induction l with
  | nil => rfl
  | cons d ds ih =>
    have hd : (d.mappedKey == k) = false := by
      exact beq_eq_false_iff_ne.mpr (h d (List.mem_cons_self d ds))
    simp only [iterFold, hd, if_false, Bool.false_eq_true]
    exact ih (fun x hx => h x (List.mem_cons_of_mem _ hx))

/-- Claim C10 (confirmed). Iterated expression with no matching Iteration
Record: for every template whose single expression is iterated with a key
matching no record of iterDecList, run neither throws nor warns; the
expression's range is replaced with the coercion of the undefined lookup
result, and the run completes and returns a string. -/
theorem claim10_iterated_no_record (proc : TemplateProcessor)
    (map : List (String × String)) (e : MappedExpression)
    (hskip : proc.atmplContainer.skip = false)
    (hinv : proc.atmplContainer.invalid = false)
    (hmap : map.isEmpty = false)
    (hlist : proc.atmplContainer.mapExprList = [e])
    (hit : e.isIterated = true)
    (hnm : ∀ d ∈ proc.atmplContainer.iterDecList, d.mappedKey ≠ e.mappedKey) :
    run proc map =
      .ok (stripIterDec
        (replaceRange proc.atmplContainer.fileContents e.startIndex e.endIndex
          (jsCoerce none).toList), []) := by
  rw [run_single proc map e hskip hinv hmap hlist]
  have hres : resolveExpr proc map e = .ok (some (jsCoerce none).toList, []) := by
    unfold resolveExpr
    simp [hit, retrieveValueFromIterDec_nomatch _ _ _ hnm, exceptBind_ok, exceptPure_ok]
  rw [hres]

/-- Single iterated record whose key matches no declared iteration, for the
C10 witness. -/
def procC10 : TemplateProcessor :=
  { atmplContainer :=
    { fileContents := "x&i&y".toList
      mapExprList :=
        [ { mappedKey := "it", isIterated := true, startIndex := 1, endIndex := 4 } ]
      iterDecList := [ { mappedKey := "other", mappedFunction := "f" } ] } }

theorem claim10_iterated_no_record_witness :
    run procC10 mapC2 = .ok ("xundefinedy".toList, []) := by
  rw [claim10_iterated_no_record procC10 mapC2
    { mappedKey := "it", isIterated := true, startIndex := 1, endIndex := 4 }
    rfl rfl rfl rfl rfl (by decide)]
  decide

/-- Claim C3 counterexample: the expression parses with key flag and the
negation flag set, the map stores the empty string at flag, and
evaluateBoolean returns false, while the claimed contract (invert the
case-insensitive true-or-1 test) demands true; the code treats a stored
empty string like an absent value because an empty string is falsy. -/
theorem claim3_counterexample :
    parseMappedExpression "::!flag::".toList =
      some { mappedKey := "flag", isNegated := true } ∧
    mapGet [("flag", "")] "flag" = some "" ∧
    evaluateBoolean "::!flag::".toList [("flag", "")] = .ok false ∧
    claimBoolValue true "" = true := by
  decide

/-- Claim C3 (amended). evaluateBoolean contract: when the grammar finds no
match it throws the input error; when it parses a record, the result is ok
false whenever the key's value is absent or the empty string (regardless of
the negation flag), and otherwise it is the case-insensitive true-or-1 test
of the value, inverted when the negation flag is set. -/
theorem claim3_evaluateBoolean_contract (s : List Char) (map : List (String × String)) :
    (parseMappedExpression s = none →
      evaluateBoolean s map = .error .invalidBoolExpr) ∧
    (∀ r, parseMappedExpression s = some r →
      evaluateBoolean s map = .ok
        (match mapGet map r.mappedKey with
         | some v => if v ≠ "" then claimBoolValue r.isNegated v else false
         | none => false)) := by
  constructor
  · intro h
    unfold evaluateBoolean
    rw [h]
  · intro r h
    unfold evaluateBoolean
    rw [h]
    cases hv : mapGet map r.mappedKey with
    | none => simp [hv]
    | some v =>
      by_cases hne : v = "" <;> simp [hv, hne, claimBoolValue]

theorem claim3_evaluateBoolean_contract_witness :
    evaluateBoolean "::k::".toList [("k", "TRUE")] = .ok true := by
  rw [(claim3_evaluateBoolean_contract "::k::".toList [("k", "TRUE")]).2
    { mappedKey := "k" } (by decide)]
  decide

/-- Claim C5 counterexample: a run performing two length-changing
substitutions still leaves the container's stored fileContents equal to the
original parsed text, contradicting the claim that the container's working
copy is destructively consumed and a second independent run would need
re-parsing. -/
theorem claim5_counterexample :
    (runFull procC1 mapC1).1.atmplContainer.fileContents = "XaaYbbZ".toList ∧
    (runFull procC1 mapC1).2 = .ok ("XuuYwZ".toList, []) ∧
    ("XuuYwZ".toList).length ≠ ("XaaYbbZ".toList).length := by
  decide

/-- Claim C5 (amended). Run does not mutate the container: the working text
is a fresh copy of the container's fileContents, the post-run processor
state equals the pre-run state however the substitutions change lengths,
and a second independent run from the same container returns the same
result as the first without re-parsing or cloning. -/
theorem claim5_run_preserves_container (proc : TemplateProcessor)
    (map : List (String × String)) :
    (runFull proc map).1 = proc ∧
    run (runFull proc map).1 map = run proc map :=
  ⟨rfl, rfl⟩

lemma exceptBind_pure_map {ε α β : Type} (p : Except ε α) (f : α → β) :
    (p >>= fun a => Except.ok (f a)) = p.map f := by
  cases p <;> rfl

lemma pipeInvoke_append (reg : String → Option (String → String)) :
    ∀ fs gs w, pipeInvoke reg (fs ++ gs) w =
      (pipeInvoke reg fs w).bind (pipeInvoke reg gs) := by
  intro fs
  induction fs with
  | nil => intro gs w; rfl
  | cons f fs ih =>
    intro gs w
    simp only [List.cons_append, pipeInvoke]
    cases reg f with
    | some t => exact ih gs (t w)
    | none => rfl

/-- Claim C8 (confirmed). Present-value resolution order: a plain mapped
expression whose key is present resolves by first ternary-replacing the
looked-up value (ternaryTrue when non-empty, else the declared ternaryFalse
or the empty string when none was declared) and then applying the whole
declared pipe chain to that value; the pipe chain applies its transforms in
declared order, each consuming the previous output, as witnessed by the
appended-chain equation; and when the whole resolution succeeds on a
single-expression template the final string is written into the record's
range. -/
theorem claim8_present_value_order (proc : TemplateProcessor)
    (map : List (String × String)) (e : MappedExpression) (v : String)
    (hit : e.isIterated = false)
    (hpar : e.isParameterized = false)
    (hv : mapGet map e.mappedKey = some v) :
    resolveExpr proc map e =
      (specPresentValue proc.pipeRegistry e v).map (fun s => (some s.toList, [])) ∧
    (∀ fs gs w, pipeInvoke proc.pipeRegistry (fs ++ gs) w =
      (pipeInvoke proc.pipeRegistry fs w).bind (pipeInvoke proc.pipeRegistry gs)) ∧
    (∀ r, specPresentValue proc.pipeRegistry e v = .ok r →
      proc.atmplContainer.skip = false → proc.atmplContainer.invalid = false →
      map.isEmpty = false → proc.atmplContainer.mapExprList = [e] →
      run proc map = .ok (stripIterDec
        (replaceRange proc.atmplContainer.fileContents e.startIndex e.endIndex r.toList),
        [])) := by
  have hmain : resolveExpr proc map e =
      (specPresentValue proc.pipeRegistry e v).map (fun s => (some s.toList, [])) := by
    unfold resolveExpr specPresentValue
    simp only [hit, hpar, hv, Bool.false_eq_true, if_false]
    by_cases hpf : e.pipeFunctions = []
    · simp [hpf, pipeInvoke, Except.map]
    · simp only [hpf, ne_eq, not_false_iff, if_true, exceptPure_ok]
      exact exceptBind_pure_map _ _
  refine ⟨hmain, pipeInvoke_append proc.pipeRegistry, ?_⟩
  intro r hr hskip hinv hmap hlist
  rw [run_single proc map e hskip hinv hmap hlist, hmain, hr]
  rfl

/-- Single-record ternary-and-piped template for the C8 witness: the key maps
to a non-empty value, the ternary replaces it by YES, and the shout pipe
appends an exclamation mark. -/
def procC8 : TemplateProcessor :=
  { atmplContainer :=
    { fileContents := "x&k&y".toList
      mapExprList :=
        [ { mappedKey := "k", isTernary := true, ternaryTrue := "YES"
            ternaryFalse := some "NO", pipeFunctions := ["shout"]
            startIndex := 1, endIndex := 4 } ]
      iterDecList := [] }
    pipeRegistry := fun n => if n == "shout" then some (fun s => s ++ "!") else none }

/-- Data map for the C8 witness. -/
def mapC8 : List (String × String) := [("k", "val")]

theorem claim8_present_value_order_witness :
    run procC8 mapC8 = .ok ("xYES!y".toList, []) := by
  rw [(claim8_present_value_order procC8 mapC8
      { mappedKey := "k", isTernary := true, ternaryTrue := "YES"
        ternaryFalse := some "NO", pipeFunctions := ["shout"]
        startIndex := 1, endIndex := 4 } "val" rfl rfl (by decide)).2.2
    "YES!" (by decide) rfl rfl rfl rfl]
  decide

lemma exceptBind_eq_error {ε α β : Type} (p : Except ε α) (f : α → Except ε β) (err : ε)
    (h : (p >>= f) = .error err) :
    p = .error err ∨ ∃ a, p = .ok a ∧ f a = .error err := by
  cases p with
  | error e0 =>
    rw [exceptBind_err] at h
    simp only [Except.error.injEq] at h
    subst h
    exact Or.inl rfl
  | ok a =>
    rw [exceptBind_ok] at h
    exact Or.inr ⟨a, rfl, h⟩

lemma tmplInvoke_error_shape (reg : String → Option String) (n : String) (err : RunError)
    (h : tmplInvoke reg n = .error err) : err = .tmplFnNotFound n := by
  unfold tmplInvoke at h
  cases hr : reg n with
  | some s =>
    simp only [hr] at h
    exact Except.noConfusion h
  | none =>
    simp only [hr, Except.error.injEq] at h
    exact h.symm

lemma pipeInvoke_error_shape (reg : String → Option (String → String)) :
    ∀ fs w err, pipeInvoke reg fs w = .error err → ∃ n, err = .pipeNotFound n := by
  intro fs
  induction fs with
  | nil =>
    intro w err h
    exact Except.noConfusion h
  | cons f fs ih =>
    intro w err h
    simp only [pipeInvoke] at h
    cases hr : reg f with
    | some t =>
      simp only [hr] at h
      exact ih _ _ h
    | none =>
      simp only [hr, Except.error.injEq] at h
      exact ⟨f, h.symm⟩

lemma iterFold_error_shape (reg : String → Option String) (k : String) :
    ∀ l acc err, iterFold reg k l acc = .error err →
      ∃ n, err = .tmplFnNotFound n := by
  intro l
  induction l with
  | nil =>
    intro acc err h
    exact Except.noConfusion h
  | cons d ds ih =>
    intro acc err h
    simp only [iterFold] at h
    by_cases hk : (d.mappedKey == k) = true
    · simp only [hk, if_true] at h
      cases ht : tmplInvoke reg d.mappedFunction with
      | ok v =>
        simp only [ht] at h
        exact ih _ _ h
      | error e2 =>
        simp only [ht, Except.error.injEq] at h
        exact ⟨d.mappedFunction, by rw [← h, tmplInvoke_error_shape reg d.mappedFunction e2 ht]⟩
    · simp only [Bool.not_eq_true] at hk
      simp only [hk, Bool.false_eq_true, if_false] at h
      exact ih _ _ h

lemma resolveExpr_error_cases (proc : TemplateProcessor) (map : List (String × String))
    (e : MappedExpression) (err : RunError)
    (h : resolveExpr proc map e = .error err) :
    err = .noParams ∨ (∃ n, err = .pipeNotFound n) ∨ (∃ n, err = .tmplFnNotFound n) := by
  unfold resolveExpr at h
  by_cases hit : e.isIterated = true
  · simp only [hit, if_true] at h
    rcases exceptBind_eq_error _ _ _ h with h2 | ⟨a, _, h3⟩
    · unfold retrieveValueFromIterDec at h2
      exact Or.inr (Or.inr (iterFold_error_shape _ _ _ _ _ h2))
    · exact Except.noConfusion h3
  · simp only [Bool.not_eq_true] at hit
    simp only [hit, Bool.false_eq_true, if_false] at h
    by_cases hpar : e.isParameterized = true
    · simp only [hpar, if_true] at h
      cases hps : proc.templateParameters with
      | none =>
        simp only [hps, Except.error.injEq] at h
        exact Or.inl h.symm
      | some ps =>
        simp only [hps] at h
        cases hm : mapGet ps e.mappedKey <;> simp only [hm] at h <;>
          exact Except.noConfusion h
    · simp only [Bool.not_eq_true] at hpar
      simp only [hpar, Bool.false_eq_true, if_false] at h
      cases hm : mapGet map e.mappedKey with
      | none =>
        simp only [hm] at h
        by_cases ho : (!e.isOptional && !proc.atmplContainer.optionalityByDefault) = true
        · simp only [ho, if_true] at h
          exact Except.noConfusion h
        · simp only [Bool.not_eq_true] at ho
          simp only [ho, Bool.false_eq_true, if_false] at h
          exact Except.noConfusion h
      | some v =>
        simp only [hm] at h
        by_cases hpf : e.pipeFunctions ≠ []
        · rw [if_pos hpf] at h
          rcases exceptBind_eq_error _ _ _ h with h2 | ⟨a, _, h3⟩
          · exact Or.inr (Or.inl (pipeInvoke_error_shape _ _ _ _ h2))
          · exact Except.noConfusion h3
        · rw [if_neg hpf, exceptBind_ok] at h
          exact Except.noConfusion h

lemma resolveExpr_noParams_iff (proc : TemplateProcessor) (map : List (String × String))
    (e : MappedExpression) :
    resolveExpr proc map e = .error .noParams ↔
      (e.isIterated = false ∧ e.isParameterized = true ∧
        proc.templateParameters = none) := by
  constructor
  · intro h
    unfold resolveExpr at h
    by_cases hit : e.isIterated = true
    · exfalso
      simp only [hit, if_true] at h
      rcases exceptBind_eq_error _ _ _ h with h2 | ⟨a, _, h3⟩
      · unfold retrieveValueFromIterDec at h2
        obtain ⟨n, hn⟩ := iterFold_error_shape _ _ _ _ _ h2
        exact RunError.noConfusion hn
      · exact Except.noConfusion h3
    · simp only [Bool.not_eq_true] at hit
      refine ⟨hit, ?_⟩
      simp only [hit, Bool.false_eq_true, if_false] at h
      by_cases hpar : e.isParameterized = true
      · refine ⟨hpar, ?_⟩
        simp only [hpar, if_true] at h
        cases hps : proc.templateParameters with
        | none => rfl
        | some ps =>
          exfalso
          simp only [hps] at h
          cases hm : mapGet ps e.mappedKey <;> simp only [hm] at h <;>
            exact Except.noConfusion h
      · exfalso
        simp only [Bool.not_eq_true] at hpar
        simp only [hpar, Bool.false_eq_true, if_false] at h
        cases hm : mapGet map e.mappedKey with
        | none =>
          simp only [hm] at h
          by_cases ho : (!e.isOptional && !proc.atmplContainer.optionalityByDefault) = true
          · simp only [ho, if_true] at h
            exact Except.noConfusion h
          · simp only [Bool.not_eq_true] at ho
            simp only [ho, Bool.false_eq_true, if_false] at h
            exact Except.noConfusion h
        | some v =>
          simp only [hm] at h
          by_cases hpf : e.pipeFunctions ≠ []
          · rw [if_pos hpf] at h
            rcases exceptBind_eq_error _ _ _ h with h2 | ⟨a, _, h3⟩
            · obtain ⟨n, hn⟩ := pipeInvoke_error_shape _ _ _ _ h2
              exact RunError.noConfusion hn
            · exact Except.noConfusion h3
          · rw [if_neg hpf, exceptBind_ok] at h
            exact Except.noConfusion h
  · rintro ⟨hit, hpar, hps⟩
    unfold resolveExpr
    simp [hit, hpar, hps]

/-- Decidable absence of a resolution error for one record: the record's
resolution is not an unresolved-pipe-function or unresolved-template-function
failure. -/
def noResolutionError (proc : TemplateProcessor) (map : List (String × String))
    (e : MappedExpression) : Bool :=
  match resolveExpr proc map e with
  | .error (.pipeNotFound _) => false
  | .error (.tmplFnNotFound _) => false
  | _ => true

lemma noResolutionError_error (proc : TemplateProcessor) (map : List (String × String))
    (e : MappedExpression) (err : RunError)
    (hs : noResolutionError proc map e = true)
    (h : resolveExpr proc map e = .error err) : err = .noParams := by
  rcases resolveExpr_error_cases proc map e err h with h1 | ⟨n, hn⟩ | ⟨n, hn⟩
  · exact h1
  · exfalso
    unfold noResolutionError at hs
    rw [h, hn] at hs
    exact Bool.noConfusion hs
  · exfalso
    unfold noResolutionError at hs
    rw [h, hn] at hs
    exact Bool.noConfusion hs

lemma processExprs_error_src (proc : TemplateProcessor) (map : List (String × String)) :
    ∀ rs st err, processExprs proc map rs st = .error err →
      ∃ e ∈ rs, resolveExpr proc map e = .error err := by
  intro rs
  induction rs with
  | nil =>
    intro st err h
    exact Except.noConfusion h
  | cons e0 rest ih =>
    intro st err h
    simp only [processExprs] at h
    rcases exceptBind_eq_error _ _ _ h with h2 | ⟨st1, _, h3⟩
    · obtain ⟨x, hx, hxe⟩ := ih st err h2
      exact ⟨x, List.mem_cons_of_mem _ hx, hxe⟩
    · rcases exceptBind_eq_error _ _ _ h3 with h4 | ⟨rw1, _, h5⟩
      · exact ⟨e0, List.mem_cons_self e0 rest, h4⟩
      · obtain ⟨r, w⟩ := rw1
        cases r <;> exact Except.noConfusion h5

lemma processExprs_ok_no_error (proc : TemplateProcessor) (map : List (String × String)) :
    ∀ rs st st1, processExprs proc map rs st = .ok st1 →
      ∀ e ∈ rs, ∀ err, resolveExpr proc map e ≠ .error err := by
  intro rs
  induction rs with
  | nil =>
    intro st st1 _ e he
    exact absurd he (List.not_mem_nil e)
  | cons e0 rest ih =>
    intro st st1 h e he err hcontra
    simp only [processExprs] at h
    cases hrest : processExprs proc map rest st with
    | error err2 =>
      rw [hrest] at h
      exact Except.noConfusion h
    | ok st2 =>
      rw [hrest] at h
      simp only [exceptBind_ok] at h
      rcases List.mem_cons.mp he with he0 | her
      · subst he0
        rw [hcontra] at h
        exact Except.noConfusion h
      · exact ih st st2 hrest e her err hcontra

lemma processExprs_noParams_of (proc : TemplateProcessor) (map : List (String × String)) :
    ∀ rs, (∃ e ∈ rs, resolveExpr proc map e = .error .noParams) →
      (∀ e ∈ rs, noResolutionError proc map e = true) →
      ∀ st, processExprs proc map rs st = .error .noParams := by
  intro rs
  induction rs with
  | nil =>
    rintro ⟨e, he, _⟩
    exact absurd he (List.not_mem_nil e)
  | cons e0 rest ih =>
    rintro ⟨ew, hewmem, hewerr⟩ hsafe st
    simp only [processExprs]
    cases hrest : processExprs proc map rest st with
    | error err2 =>
      obtain ⟨x, hx, hxerr⟩ := processExprs_error_src proc map rest st err2 hrest
      have hshape := noResolutionError_error proc map x err2
        (hsafe x (List.mem_cons_of_mem _ hx)) hxerr
      subst hshape
      rfl
    | ok st1 =>
      rcases List.mem_cons.mp hewmem with he0 | her
      · subst he0
        simp only [exceptBind_ok]
        rw [hewerr]
        rfl
      · exact absurd hewerr
          (processExprs_ok_no_error proc map rest st st1 hrest ew her RunError.noParams)

/-- Claim C6 (amended). Parameterized state error: run throws the state error
only when the template contains a non-iterated parameterized expression and
no template parameters were ever set; a template with no parameterized
expression never yields the state error; when the state error is thrown no
string is returned and the container state is unaffected; and conversely,
under the guards and provided no pipe- or template-function resolution error
is thrown at a record processed earlier, an unset parameter set together
with a parameterized expression forces the state error. -/
theorem claim6_parameterized_state_error (proc : TemplateProcessor)
    (map : List (String × String)) :
    (run proc map = .error .noParams →
      proc.templateParameters = none ∧
      ∃ e ∈ proc.atmplContainer.mapExprList,
        e.isIterated = false ∧ e.isParameterized = true) ∧
    ((∀ e ∈ proc.atmplContainer.mapExprList, e.isParameterized = false) →
      run proc map ≠ .error .noParams) ∧
    (run proc map = .error .noParams → (runFull proc map).1 = proc) ∧
    (proc.atmplContainer.skip = false → proc.atmplContainer.invalid = false →
      map.isEmpty = false → proc.templateParameters = none →
      (∀ e ∈ proc.atmplContainer.mapExprList, noResolutionError proc map e = true) →
      (∃ e ∈ proc.atmplContainer.mapExprList,
        e.isIterated = false ∧ e.isParameterized = true) →
      run proc map = .error .noParams) := by
  have main : run proc map = .error .noParams →
      proc.templateParameters = none ∧
      ∃ e ∈ proc.atmplContainer.mapExprList,
        e.isIterated = false ∧ e.isParameterized = true := by
    intro h
    unfold run at h
    by_cases hs : proc.atmplContainer.skip = true
    · rw [if_pos hs] at h
      exact Except.noConfusion h
    · rw [if_neg hs] at h
      by_cases hi : proc.atmplContainer.invalid = true
      · rw [if_pos hi] at h
        simp only [Except.error.injEq] at h
        exact RunError.noConfusion h
      · rw [if_neg hi] at h
        by_cases hm : map.isEmpty = true
        · rw [if_pos hm] at h
          simp only [Except.error.injEq] at h
          exact RunError.noConfusion h
        · rw [if_neg hm] at h
          rcases exceptBind_eq_error _ _ _ h with h2 | ⟨a, _, h3⟩
          · obtain ⟨e, he, herr⟩ := processExprs_error_src proc map _ _ _ h2
            obtain ⟨hit, hpar, hps⟩ := (resolveExpr_noParams_iff proc map e).mp herr
            exact ⟨hps, e, he, hit, hpar⟩
          · exact Except.noConfusion h3
  refine ⟨main, ?_, fun _ => rfl, ?_⟩
  · intro hall hcontra
    obtain ⟨_, e, he, _, hpar⟩ := main hcontra
    rw [hall e he] at hpar
    exact Bool.noConfusion hpar
  · intro hskip hinv hmap hps hsafe hex
    obtain ⟨ew, hmem, hit, hpar⟩ := hex
    unfold run
    rw [hskip, hinv, hmap]
    simp only [Bool.false_eq_true, if_false]
    have hew : resolveExpr proc map ew = .error .noParams :=
      (resolveExpr_noParams_iff proc map ew).mpr ⟨hit, hpar, hps⟩
    rw [processExprs_noParams_of proc map _ ⟨ew, hmem, hew⟩ hsafe _]
    rfl

/-- Single parameterized record with no parameter set supplied, for the C6
witness. -/
def procC6 : TemplateProcessor :=
  { atmplContainer :=
    { fileContents := "x&p&y".toList
      mapExprList :=
        [ { mappedKey := "p", isParameterized := true, startIndex := 1, endIndex := 4 } ]
      iterDecList := [] } }

theorem claim6_parameterized_state_error_witness :
    run procC6 mapC2 = .error .noParams :=
  (claim6_parameterized_state_error procC6 mapC2).2.2.2 rfl rfl rfl rfl
    (by decide)
    ⟨{ mappedKey := "p", isParameterized := true, startIndex := 1, endIndex := 4 },
      by decide, rfl, rfl⟩

/-- Two-record template: a parameterized expression at the low offset and a
plain expression with an unresolvable pipe function at the high offset; the
descending walk reaches the bad pipe first. -/
def procC6ce : TemplateProcessor :=
  { atmplContainer :=
    { fileContents := "xpxkx".toList
      mapExprList :=
        [ { mappedKey := "p", isParameterized := true, startIndex := 1, endIndex := 2 }
        , { mappedKey := "k", pipeFunctions := ["nope"], startIndex := 3, endIndex := 4 } ]
      iterDecList := [] } }

/-- Claim C6 counterexample: the template contains a parameterized expression
and setTemplateParameters was never called, yet run does not throw the state
error: the unresolved pipe function of the higher-offset record is thrown
first, refuting the claimed iff. -/
theorem claim6_counterexample :
    run procC6ce [("k", "v")] = .error (.pipeNotFound "nope") ∧
    procC6ce.templateParameters = none ∧
    (procC6ce.atmplContainer.mapExprList.any
      (fun e => e.isParameterized && !e.isIterated)) = true ∧
    run procC6ce [("k", "v")] ≠ .error .noParams := by
  decide

end ATE
